import Mathlib

/-!
Verification of the HypurrFiVault leverage-loop and rebalancing engine
(contracts/HypurrFiVault.sol, pragma solidity 0.8.20) against its
natural-language specification.

The contract is shallowly embedded: uint256 values become Nat (all the
arithmetic in the claims under study stays far below 2^256, and Solidity
0.8 reverts on under/overflow, which the embedding mirrors with Option and
truncated subtraction only where the source explicitly guards), the
external HypurrFi pool becomes an abstract structure of functions over an
opaque state type, and every reverting entry point returns Option (none =
revert, all prior state discarded), which models the EVM all-or-nothing
transaction semantics.

HypurrFiVault inherits from OpenZeppelin Contracts v5 (pinned by the
pragma together with the Ownable(msg.sender) constructor call): the
functions the vault does not override (mint, convertToShares,
convertToAssets, previewDeposit, previewMint, previewWithdraw,
previewRedeem, totalSupply) behave as in the OpenZeppelin v5 ERC4626 /
ERC20 base contracts, and those inherited bodies are embedded here
faithfully to the OpenZeppelin v5 source (virtual-offset conversion
formulas with the default decimals offset of zero).
-/

namespace HypurrFi

/-- Fixed-point scale used by health factors (1e18 = 1.0), source constant. -/
def WAD : Nat := 10 ^ 18

/-- Source constant BASIS_POINTS = 10000. -/
def BASIS_POINTS : Nat := 10000

/-- Largest uint256 value, used by the source as the default maxTotalAssets
and reported by Aave-style pools as the health factor of a debt-free
position. -/
def UMAX : Nat := 2 ^ 256 - 1

/-- Owner-mutable vault configuration, source state variables
targetHealthFactor, minHealthFactor, maxHealthFactor, targetLTV,
maxLoopIterations, maxTotalAssets, paused (HypurrFiVault.sol lines 67-75). -/
structure VaultParams where
  targetHealthFactor : Nat
  minHealthFactor : Nat
  maxHealthFactor : Nat
  targetLTV : Nat
  maxLoopIterations : Nat
  maxTotalAssets : Nat
  paused : Bool
deriving Repr, DecidableEq

/-- Default parameter values from the source declarations. -/
def defaultParams : VaultParams where
  targetHealthFactor := 13 * 10 ^ 17
  minHealthFactor := 115 * 10 ^ 16
  maxHealthFactor := 15 * 10 ^ 17
  targetLTV := 6000
  maxLoopIterations := 4
  maxTotalAssets := UMAX
  paused := false

/-- The two ERC20 assets the vault touches at the pool: asset() (the
deposit asset) and borrowAsset. -/
inductive Asset where
  | base
  | borrowed
deriving Repr, DecidableEq

/-- One mutating call made by the vault to the external HypurrFi pool.
Amounts are base-currency units; the referral code, rate mode and
onBehalfOf arguments of the source calls are constants (REFERRAL_CODE = 0,
VARIABLE_INTEREST_RATE_MODE = 2, address(this)) and carry no information. -/
inductive PoolAction where
  | supplyA (which : Asset) (amount : Nat)
  | borrowA (amount : Nat)
  | repayA (amount : Nat)
  | withdrawA (which : Asset) (amount : Nat)
deriving Repr, DecidableEq

/-- Abstract external lending market (IHypurrFiPool as used by the vault).
getPositionData mirrors HypurrFiVault._getPositionData: the triple
(totalCollateralBase, totalDebtBase, healthFactor) read from
getUserAccountData for the vault account. The four mutators are the pool
calls the vault makes; their semantics are the market side and are left
abstract, so theorems quantifying over a Pool hold for every market
response. -/
structure Pool (σ : Type) where
  getPositionData : σ → Nat × Nat × Nat
  supply : Asset → Nat → σ → σ
  borrow : Nat → σ → σ
  repay : Nat → σ → σ
  withdraw : Asset → Nat → σ → σ

/-- Collateral component of the pool position readout. -/
def collOf {σ : Type} (P : Pool σ) (s : σ) : Nat := (P.getPositionData s).1

/-- Debt component of the pool position readout. -/
def debtOf {σ : Type} (P : Pool σ) (s : σ) : Nat := (P.getPositionData s).2.1

/-- Health-factor component of the pool position readout. -/
def hfOf {σ : Type} (P : Pool σ) (s : σ) : Nat := (P.getPositionData s).2.2

/-- Floor-rounded mulDiv, OpenZeppelin Math.mulDiv with Rounding.Floor. -/
def mulDivFloor (a b c : Nat) : Nat := a * b / c

/-- Ceiling-rounded mulDiv, OpenZeppelin Math.mulDiv with Rounding.Ceil
(adds one when the floor division has a remainder; for c > 0 this equals
the usual (a * b + c - 1) / c). -/
def mulDivCeil (a b c : Nat) : Nat :=
  a * b / c + (if a * b % c = 0 then 0 else 1)

/-- OpenZeppelin v5 Math.mulDiv with its overflow revert modelled: none
when the denominator is zero or the full 512-bit product does not divide
into a uint256 result (the MathOverflowedMulDiv revert, taken when the
high product limb prod1 is at least the denominator, equivalently when
the quotient would reach 2^256). The unchecked mulDivFloor above
describes the same quotient on the non-reverting domain; this checked
variant is used where a claim depends on the revert itself. -/
def mulDivFloorChecked (a b c : Nat) : Option Nat :=
  if c = 0 then none
  else if c * 2 ^ 256 ≤ a * b then none
  else some (a * b / c)

/-- Checked ceiling mulDiv of OpenZeppelin v5: the checked floor variant
followed by the checked plus-one of the rounding step, which itself
reverts when the rounded-up result reaches 2^256. -/
def mulDivCeilChecked (a b c : Nat) : Option Nat :=
  match mulDivFloorChecked a b c with
  | none => none
  | some r =>
    if 2 ^ 256 ≤ r + (if a * b % c = 0 then 0 else 1) then none
    else some (r + (if a * b % c = 0 then 0 else 1))

/-- Inherited OpenZeppelin v5 ERC4626._convertToShares with the default
decimals offset 0: assets.mulDiv(totalSupply() + 1, totalAssets() + 1,
rounding), floor rounding. S is totalSupply (total shares), A is the
overridden totalAssets value. -/
def convertToShares (S A assets : Nat) : Nat :=
  mulDivFloor assets (S + 1) (A + 1)

/-- Inherited OpenZeppelin v5 ERC4626._convertToAssets with the default
decimals offset 0: shares.mulDiv(totalAssets() + 1, totalSupply() + 1,
rounding), floor rounding. -/
def convertToAssets (S A shares : Nat) : Nat :=
  mulDivFloor shares (A + 1) (S + 1)

/-- Ceiling variant of the share conversion, used by the inherited
previewWithdraw. -/
def convertToSharesUp (S A assets : Nat) : Nat :=
  mulDivCeil assets (S + 1) (A + 1)

/-- Ceiling variant of the asset conversion, used by the inherited
previewMint. -/
def convertToAssetsUp (S A shares : Nat) : Nat :=
  mulDivCeil shares (A + 1) (S + 1)

/-- Conversion to shares exactly as the specification words it (claim C4):
shares = totalShares == 0 ? assets : floor(assets * totalShares /
totalAssets). Stated from the spec, for comparison with the inherited
OpenZeppelin formula actually used by the contract. -/
def convertToSharesSpec (S A assets : Nat) : Nat :=
  if S = 0 then assets else assets * S / A

/-- Conversion to assets exactly as the specification words it (claim C4):
assets = totalShares == 0 ? 0 : floor(shares * totalAssets / totalShares). -/
def convertToAssetsSpec (S A shares : Nat) : Nat :=
  if S = 0 then 0 else shares * A / S

/-- Overridden HypurrFiVault.totalAssets (lines 260-266): collateral >
debt ? collateral - debt : 0, both read from the pool. -/
def totalAssetsOf (collateral debt : Nat) : Nat :=
  if debt < collateral then collateral - debt else 0

/-- Vault-level totalAssets: the override applied to the current pool
readout. -/
def vaultTotalAssets {σ : Type} (P : Pool σ) (s : σ) : Nat :=
  totalAssetsOf (collOf P s) (debtOf P s)

/-- HypurrFiVault.setParameters (lines 625-642): four require guards, then
the four parameter fields are updated. none models a revert, which leaves
every parameter unchanged. -/
def setParameters (p : VaultParams) (t m M l : Nat) : Option VaultParams :=
  if ¬ (11 * 10 ^ 17 ≤ t ∧ t ≤ 2 * 10 ^ 18) then none
  else if ¬ (105 * 10 ^ 16 ≤ m ∧ m < t) then none
  else if ¬ (t < M ∧ M ≤ 3 * 10 ^ 18) then none
  else if ¬ (0 < l ∧ l ≤ 8000) then none
  else some { p with
    targetHealthFactor := t
    minHealthFactor := m
    maxHealthFactor := M
    targetLTV := l }

/-- Body of one leverage-loop iteration bound, HypurrFiVault._executeLoop
lines 327-358: the for loop runs iterations = 1, 2, ... while iterations <
maxLoopIterations, so this recursion receives maxLoopIterations - 1 as its
count. Each pass reads the position, computes maxBorrow = collateral *
targetLTV / BASIS_POINTS, exits when maxBorrow <= debt or the resulting
toBorrow is zero, otherwise borrows toBorrow, re-supplies it as
borrowAsset collateral, and reverts the whole deposit (none) when the
re-read health factor falls below minHealthFactor. The returned list is
the trace of pool calls made, also on the reverting path. -/
def loopIters {σ : Type} (P : Pool σ) (p : VaultParams) :
    Nat → σ → Option σ × List PoolAction
  | 0, s => (some s, [])
  | n + 1, s =>
    let c := collOf P s
    let d := debtOf P s
    let maxBorrow := c * p.targetLTV / BASIS_POINTS
    if maxBorrow ≤ d then (some s, [])
    else
      let toBorrow := maxBorrow - d
      if toBorrow = 0 then (some s, [])
      else
        let s1 := P.supply .borrowed toBorrow (P.borrow toBorrow s)
        let acts := [PoolAction.borrowA toBorrow, PoolAction.supplyA .borrowed toBorrow]
        if hfOf P s1 < p.minHealthFactor then (none, acts)
        else
          let r := loopIters P p n s1
          (r.1, acts ++ r.2)

/-- HypurrFiVault._executeLoop (lines 319-363): initial supply of the
deposited assets, then the bounded borrow/re-supply iterations. none means
the loop reverted (unsafe position mid-loop); the action trace is returned
in both cases. -/
def executeLoop {σ : Type} (P : Pool σ) (p : VaultParams) (initialAssets : Nat) (s : σ) :
    Option σ × List PoolAction :=
  let s0 := P.supply .base initialAssets s
  let r := loopIters P p (p.maxLoopIterations - 1) s0
  (r.1, PoolAction.supplyA .base initialAssets :: r.2)

/-- Number of pool supply calls in an action trace. -/
def countSupply : List PoolAction → Nat
  | [] => 0
  | PoolAction.supplyA _ _ :: tr => countSupply tr + 1
  | _ :: tr => countSupply tr

/-- Repay slice computed by one iteration of
HypurrFiVault._deleverageToTarget (lines 431-434), exactly as the source
writes it: toRepay = (debt * (targetHealthFactor - hf)) /
targetHealthFactor / 1e18, replaced by debt / 10 when that rounds to zero,
then clamped above at debt. Note the trailing division by 1e18: the
quotient (debt * (targetHealthFactor - hf)) / targetHealthFactor is
already in debt units because the 1e18 scales of the two health factors
cancel, so the extra division sends the slice to zero for every debt below
roughly 1e18 and the debt / 10 fallback takes over. -/
def deleverageSlice (p : VaultParams) (debt hf : Nat) : Nat :=
  let toRepay := debt * (p.targetHealthFactor - hf) / p.targetHealthFactor / WAD
  let toRepay := if toRepay = 0 then debt / 10 else toRepay
  if debt < toRepay then debt else toRepay

/-- Repay slice as the specification words it (claim C3): debt *
(targetHealthFactor - currentHF) / targetHealthFactor, scaled consistently
with the 1e18 fixed-point ratios (the scales cancel, leaving debt units),
clamped to the interval [0, debt]. Stated from the spec, for comparison
with deleverageSlice taken from the source. -/
def deleverageSliceSpec (p : VaultParams) (debt hf : Nat) : Nat :=
  min (debt * (p.targetHealthFactor - hf) / p.targetHealthFactor) debt

/-- HypurrFiVault._deleverageToTarget (lines 425-453): while hf <
targetHealthFactor and debt > 0, compute the repay slice, withdraw that
much borrowAsset collateral, repay it, re-read the position, and stop
after a zero slice (the source safety break). The while loop has no bound
in the source; the fuel argument makes the embedding total, with none
meaning the fuel was exhausted before the loop exited. -/
def deleverageLoop {σ : Type} (P : Pool σ) (p : VaultParams) :
    Nat → σ → Option (σ × List PoolAction)
  | 0, _ => none
  | fuel + 1, s =>
    let d := debtOf P s
    let hf := hfOf P s
    if hf < p.targetHealthFactor ∧ 0 < d then
      let toRepay := deleverageSlice p d hf
      let s1 := P.repay toRepay (P.withdraw .borrowed toRepay s)
      let acts := [PoolAction.withdrawA .borrowed toRepay, PoolAction.repayA toRepay]
      if toRepay = 0 then some (s1, acts)
      else
        match deleverageLoop P p fuel s1 with
        | none => none
        | some (s2, tr) => some (s2, acts ++ tr)
    else some (s, [])

/-- HypurrFiVault._releverageToTarget (lines 458-485): while hf >
maxHealthFactor, borrow up to collateral * targetLTV / BASIS_POINTS -
debt and re-supply it, exiting when no borrow capacity remains. Fueled
like deleverageLoop. -/
def releverageLoop {σ : Type} (P : Pool σ) (p : VaultParams) :
    Nat → σ → Option (σ × List PoolAction)
  | 0, _ => none
  | fuel + 1, s =>
    let c := collOf P s
    let d := debtOf P s
    let hf := hfOf P s
    if p.maxHealthFactor < hf then
      let maxNewBorrow := c * p.targetLTV / BASIS_POINTS
      if maxNewBorrow ≤ d then some (s, [])
      else
        let toBorrow := maxNewBorrow - d
        if toBorrow = 0 then some (s, [])
        else
          let s1 := P.supply .borrowed toBorrow (P.borrow toBorrow s)
          match releverageLoop P p fuel s1 with
          | none => none
          | some (s2, tr) =>
            some (s2, PoolAction.borrowA toBorrow :: PoolAction.supplyA .borrowed toBorrow :: tr)
    else some (s, [])

/-- HypurrFiVault.rebalance (lines 403-420): deleverage when hf <
minHealthFactor, re-leverage when hf > maxHealthFactor and debt > 0,
otherwise return false having made no pool call. The source performs no
health-factor check after either branch. The returned Bool is the source
success value; the trace lists the pool calls made. -/
def rebalance {σ : Type} (P : Pool σ) (p : VaultParams) (fuel : Nat) (s : σ) :
    Option (Bool × σ × List PoolAction) :=
  let d := debtOf P s
  let hf := hfOf P s
  if hf < p.minHealthFactor then
    match deleverageLoop P p fuel s with
    | none => none
    | some (s1, tr) => some (true, s1, tr)
  else if p.maxHealthFactor < hf ∧ 0 < d then
    match releverageLoop P p fuel s with
    | none => none
    | some (s1, tr) => some (true, s1, tr)
  else some (false, s, [])

/-- HypurrFiVault._unwindPosition (lines 369-394): proportional unwind for
a withdrawal. When collateral is zero nothing happens; otherwise
withdrawRatio = assetsToWithdraw * 1e18 / collateral, debtToRepay = debt *
withdrawRatio / 1e18, the debt slice is withdrawn (as borrowAsset
collateral) and repaid when positive, and finally assetsToWithdraw of the
base asset is withdrawn. -/
def unwindPosition {σ : Type} (P : Pool σ) (assetsToWithdraw : Nat) (s : σ) :
    σ × List PoolAction :=
  let c := collOf P s
  let d := debtOf P s
  if c = 0 then (s, [])
  else
    let withdrawRatio := assetsToWithdraw * WAD / c
    let debtToRepay := d * withdrawRatio / WAD
    let step :=
      if 0 < debtToRepay ∧ 0 < d then
        (P.repay debtToRepay (P.withdraw .borrowed debtToRepay s),
          [PoolAction.withdrawA .borrowed debtToRepay, PoolAction.repayA debtToRepay])
      else (s, [])
    (P.withdraw .base assetsToWithdraw step.1,
      step.2 ++ [PoolAction.withdrawA .base assetsToWithdraw])

/-- Vault-side state: the inherited ERC20 share ledger (balances, total
supply, allowances) together with the external market state. Holders and
spenders are identified by Nat addresses. -/
structure VaultState (σ : Type) where
  totalShares : Nat
  balances : Nat → Nat
  allowances : Nat → Nat → Nat
  market : σ

/-- Inherited previewDeposit: _convertToShares(assets, Floor) over the
overridden totalAssets. -/
def previewDeposit {σ : Type} (P : Pool σ) (vs : VaultState σ) (assets : Nat) : Nat :=
  convertToShares vs.totalShares (vaultTotalAssets P vs.market) assets

/-- Inherited previewMint: _convertToAssets(shares, Ceil). -/
def previewMint {σ : Type} (P : Pool σ) (vs : VaultState σ) (shares : Nat) : Nat :=
  convertToAssetsUp vs.totalShares (vaultTotalAssets P vs.market) shares

/-- Inherited previewWithdraw: _convertToShares(assets, Ceil). -/
def previewWithdraw {σ : Type} (P : Pool σ) (vs : VaultState σ) (assets : Nat) : Nat :=
  convertToSharesUp vs.totalShares (vaultTotalAssets P vs.market) assets

/-- Inherited previewRedeem: _convertToAssets(shares, Floor). -/
def previewRedeem {σ : Type} (P : Pool σ) (vs : VaultState σ) (shares : Nat) : Nat :=
  convertToAssets vs.totalShares (vaultTotalAssets P vs.market) shares

/-- Overridden HypurrFiVault.maxDeposit (lines 273-280): zero while
paused, otherwise the remaining headroom below maxTotalAssets. -/
def maxDeposit {σ : Type} (P : Pool σ) (p : VaultParams) (vs : VaultState σ) : Nat :=
  if p.paused then 0
  else
    let currentAssets := vaultTotalAssets P vs.market
    if p.maxTotalAssets ≤ currentAssets then 0
    else p.maxTotalAssets - currentAssets

/-- Overridden HypurrFiVault.maxMint (lines 287-290): zero when the
deposit headroom is zero, otherwise previewDeposit(maxDeposit(receiver)).
The inherited previewDeposit computes Math.mulDiv(maxAssets,
totalSupply() + 1, totalAssets() + 1), which reverts with
MathOverflowedMulDiv when the quotient would reach 2^256; none models
that revert. In particular, with the default maxTotalAssets of 2^256 - 1
and at least one share outstanding the headroom times totalSupply() + 1
overflows, so maxMint and hence mint revert until the owner lowers
maxTotalAssets through setMaxTotalAssets. -/
def maxMint {σ : Type} (P : Pool σ) (p : VaultParams) (vs : VaultState σ) : Option Nat :=
  let maxAssets := maxDeposit P p vs
  if maxAssets = 0 then some 0
  else mulDivFloorChecked maxAssets (vs.totalShares + 1) (vaultTotalAssets P vs.market + 1)

/-- Overridden HypurrFiVault.maxWithdraw (lines 297-302):
previewRedeem(balanceOf(owner)). -/
def maxWithdraw {σ : Type} (P : Pool σ) (vs : VaultState σ) (owner : Nat) : Nat :=
  previewRedeem P vs (vs.balances owner)

/-- Overridden HypurrFiVault.maxRedeem (lines 309-311): balanceOf(owner). -/
def maxRedeem {σ : Type} (vs : VaultState σ) (owner : Nat) : Nat :=
  vs.balances owner

/-- ERC20 _mint on the share ledger: increase the receiver balance and the
total supply. -/
def mintShares {σ : Type} (vs : VaultState σ) (receiver amount : Nat) : VaultState σ :=
  { vs with
    totalShares := vs.totalShares + amount
    balances := Function.update vs.balances receiver (vs.balances receiver + amount) }

/-- ERC20 _burn on the share ledger: none when the owner balance is
insufficient (the base-contract revert), else decrease balance and total
supply. -/
def burnShares {σ : Type} (vs : VaultState σ) (owner amount : Nat) : Option (VaultState σ) :=
  if vs.balances owner < amount then none
  else some { vs with
    totalShares := vs.totalShares - amount
    balances := Function.update vs.balances owner (vs.balances owner - amount) }

/-- ERC20 _spendAllowance: revert when the allowance is insufficient, else
decrement it. The OpenZeppelin shortcut for an infinite (uint256 max)
allowance is not modelled: Nat has no maximum, and no claim under study
depends on it. -/
def spendAllowance {σ : Type} (vs : VaultState σ) (owner spender amount : Nat) :
    Option (VaultState σ) :=
  if vs.allowances owner spender < amount then none
  else some { vs with
    allowances := fun o s =>
      if o = owner ∧ s = spender then vs.allowances owner spender - amount
      else vs.allowances o s }

/-- HypurrFiVault.deposit (lines 134-162): whenNotPaused, reject zero
assets, reject above maxDeposit, shares = previewDeposit (pre-mutation),
reject zero shares, transfer in (token movement not modelled), mint
shares, run the leverage loop, and require the final health factor to be
at least minHealthFactor. Result: minted shares, the new vault state, and
the pool-call trace. -/
def deposit {σ : Type} (P : Pool σ) (p : VaultParams) (vs : VaultState σ)
    (assets receiver : Nat) : Option (Nat × VaultState σ × List PoolAction) :=
  if p.paused then none
  else if assets = 0 then none
  else if maxDeposit P p vs < assets then none
  else
    let shares := previewDeposit P vs assets
    if shares = 0 then none
    else
      let vs1 := mintShares vs receiver shares
      match executeLoop P p assets vs1.market with
      | (none, _) => none
      | (some m2, tr) =>
        if hfOf P m2 < p.minHealthFactor then none
        else some (shares, { vs1 with market := m2 }, tr)

/-- Inherited OpenZeppelin v5 ERC4626.mint, which HypurrFiVault does NOT
override (no mint function appears in the contract): read maxMint (whose
inner mulDiv can revert), revert above it, assets = previewMint(shares)
(a ceiling mulDiv with its own overflow revert), then _deposit =
transfer assets in (token movement not modelled) and _mint the shares,
whose checked total-supply addition reverts at 2^256. On the
non-reverting path the inherited body makes no pool call, never runs
_executeLoop, and performs no health-factor check, so the trace
component is always empty. Embedded from the OpenZeppelin v5 ERC4626 and
ERC20 sources, pinned by pragma 0.8.20 and the Ownable(msg.sender)
constructor call. -/
def mint {σ : Type} (P : Pool σ) (p : VaultParams) (vs : VaultState σ)
    (shares receiver : Nat) : Option (Nat × VaultState σ × List PoolAction) :=
  match maxMint P p vs with
  | none => none
  | some maxShares =>
    if maxShares < shares then none
    else
      match mulDivCeilChecked shares (vaultTotalAssets P vs.market + 1) (vs.totalShares + 1) with
      | none => none
      | some assets =>
        if 2 ^ 256 ≤ vs.totalShares + shares then none
        else some (assets, mintShares vs receiver shares, [])

/-- HypurrFiVault.withdraw (lines 171-208): reject zero assets, reject
above maxWithdraw(owner), shares = previewWithdraw, reject zero shares,
spend allowance when the caller is not the owner, burn the shares, unwind
proportionally, transfer out (not modelled), and when shares remain
outstanding require hf at least minHealthFactor. -/
def withdraw {σ : Type} (P : Pool σ) (p : VaultParams) (vs : VaultState σ)
    (assets sender _receiver owner : Nat) : Option (Nat × VaultState σ × List PoolAction) :=
  if assets = 0 then none
  else if maxWithdraw P vs owner < assets then none
  else
    let shares := previewWithdraw P vs assets
    if shares = 0 then none
    else
      match (if sender = owner then some vs else spendAllowance vs owner sender shares) with
      | none => none
      | some vsA =>
        match burnShares vsA owner shares with
        | none => none
        | some vs1 =>
          let r := unwindPosition P assets vs1.market
          let vs2 := { vs1 with market := r.1 }
          if 0 < vs2.totalShares then
            if hfOf P vs2.market < p.minHealthFactor then none
            else some (shares, vs2, r.2)
          else some (shares, vs2, r.2)

/-- HypurrFiVault.redeem (lines 217-254): reject zero shares, reject above
maxRedeem(owner), assets = previewRedeem, reject zero assets, spend
allowance when the caller is not the owner, burn, unwind, transfer out
(not modelled), and when shares remain outstanding require hf at least
minHealthFactor. -/
def redeem {σ : Type} (P : Pool σ) (p : VaultParams) (vs : VaultState σ)
    (shares sender _receiver owner : Nat) : Option (Nat × VaultState σ × List PoolAction) :=
  if shares = 0 then none
  else if maxRedeem vs owner < shares then none
  else
    let assets := previewRedeem P vs shares
    if assets = 0 then none
    else
      match (if sender = owner then some vs else spendAllowance vs owner sender shares) with
      | none => none
      | some vsA =>
        match burnShares vsA owner shares with
        | none => none
        | some vs1 =>
          let r := unwindPosition P assets vs1.market
          let vs2 := { vs1 with market := r.1 }
          if 0 < vs2.totalShares then
            if hfOf P vs2.market < p.minHealthFactor then none
            else some (assets, vs2, r.2)
          else some (assets, vs2, r.2)

/-- Inherited ERC4626.convertToShares: _convertToShares(assets, Floor)
over the overridden totalAssets, like previewDeposit. -/
def vaultConvertToShares {σ : Type} (P : Pool σ) (vs : VaultState σ) (assets : Nat) : Nat :=
  convertToShares vs.totalShares (vaultTotalAssets P vs.market) assets

/-- Inherited ERC4626.convertToAssets: _convertToAssets(shares, Floor)
over the overridden totalAssets, like previewRedeem. -/
def vaultConvertToAssets {σ : Type} (P : Pool σ) (vs : VaultState σ) (shares : Nat) : Nat :=
  convertToAssets vs.totalShares (vaultTotalAssets P vs.market) shares

/-- Concrete market state used to instantiate the abstract pool in
witnesses and counterexamples: base-asset collateral, borrow-asset
collateral and outstanding debt, all in base-currency units at price one. -/
structure SM where
  base : Nat
  extra : Nat
  debt : Nat
deriving Repr, DecidableEq

/-- Health factor of the concrete market: collateral * liquidation
threshold / debt in 1e18 fixed point with a 90 percent threshold, the
Aave-style formula of MockHypurrFiPool.getUserAccountData; a debt-free
account with collateral reads the uint256 maximum and an empty account
reads zero, again following the mock. -/
def smHF (c d : Nat) : Nat :=
  if d = 0 then (if c = 0 then 0 else UMAX)
  else c * 9000 * WAD / (d * BASIS_POINTS)

/-- Concrete pool instance over SM, consistent with the external-market
interface the specification assumes (section 6): supply adds collateral,
borrow adds debt, repay decreases debt capped at the outstanding amount
(truncated subtraction), withdraw decreases the matching collateral
balance, and the account readout reports the current totals plus the
health factor above. -/
def smPool : Pool SM where
  getPositionData s := (s.base + s.extra, s.debt, smHF (s.base + s.extra) s.debt)
  supply a amt s :=
    match a with
    | .base => { s with base := s.base + amt }
    | .borrowed => { s with extra := s.extra + amt }
  borrow amt s := { s with debt := s.debt + amt }
  repay amt s := { s with debt := s.debt - amt }
  withdraw a amt s :=
    match a with
    | .base => { s with base := s.base - amt }
    | .borrowed => { s with extra := s.extra - amt }

/-- Fresh vault: no shares, no balances, empty market. -/
def vsFresh : VaultState SM :=
  { totalShares := 0, balances := fun _ => 0, allowances := fun _ _ => 0
    market := SM.mk 0 0 0 }

/-- Result of the witness deposit of 100 base units into the fresh vault. -/
def dres : Nat × VaultState SM × List PoolAction :=
  (deposit smPool defaultParams vsFresh 100 7).getD (0, vsFresh, [])

/-- Leveraged vault state reached by that deposit: 100 shares held by
holder 7, pool position 100 base collateral, 117 borrow-asset collateral,
117 debt. -/
def vsLev : VaultState SM :=
  { totalShares := 100, balances := Function.update (fun _ => 0) 7 100
    allowances := fun _ _ => 0, market := SM.mk 100 117 117 }

/-- Result of the witness withdrawal of 10 assets from the leveraged
state. -/
def wres : Nat × VaultState SM × List PoolAction :=
  (withdraw smPool defaultParams vsLev 10 7 7 7).getD (0, vsLev, [])

/-- Result of the witness redemption of 10 shares from the leveraged
state. -/
def rres : Nat × VaultState SM × List PoolAction :=
  (redeem smPool defaultParams vsLev 10 7 7 7).getD (0, vsLev, [])

/-- Market state with health factor 1.08e18, strictly between 1.0 and the
1.15e18 minimum, with a debt of five base units so that the deleverage
repay slice rounds to zero. -/
def mLow : SM := SM.mk 1 5 5

/-- Result of one deleverage step from mLow. -/
def dlres : SM × List PoolAction :=
  (deleverageLoop smPool defaultParams 1 mLow).getD (mLow, [])

/-- Market state with debt 1e18 and health factor 1.08e18, below the
rebalance trigger, used to exhibit the deleverage slice formula. -/
def mC3 : SM := SM.mk (2 * 10 ^ 17) (10 ^ 18) (10 ^ 18)

/-- Vault state whose market position is deeply under water (health factor
0.72e18): collateral 8, debt 10, so totalAssets is 0, with 5 shares
outstanding. -/
def vsUnsafe : VaultState SM :=
  { totalShares := 5, balances := Function.update (fun _ => 0) 7 5
    allowances := fun _ _ => 0, market := SM.mk 8 0 10 }

/-- Default parameters with maxTotalAssets lowered to 1e12, a value the
owner can set through setMaxTotalAssets (which only requires a positive
argument). With the default 2^256 - 1 cap and shares outstanding the
inherited maxMint reverts on mulDiv overflow before mint can run; under
this finite cap every arithmetic step of the mint path fits in uint256,
so the real mint executes to completion. -/
def pCapped : VaultParams := { defaultParams with maxTotalAssets := 10 ^ 12 }

/-- Vault state with zero shares but one unit of net assets (positive
collateral donated to the pool account), where previewDeposit of one
asset rounds to zero shares. -/
def vsDonated : VaultState SM :=
  { totalShares := 0, balances := fun _ => 0, allowances := fun _ _ => 0
    market := SM.mk 1 0 0 }

/-- Vault state with one share outstanding (holder 3) and zero net assets,
where previewRedeem of the share rounds to zero assets. -/
def vsZeroAssets : VaultState SM :=
  { totalShares := 1, balances := Function.update (fun _ => 0) 3 1
    allowances := fun _ _ => 0, market := SM.mk 0 0 0 }

/-- Market state with health factor 1.26e18, inside the
[minHealthFactor, maxHealthFactor] band of the default parameters. -/
def mInBand : SM := SM.mk 2 5 5

/-! Helper lemmas shared by the claim theorems. -/

/-- The deleverage repay slice never exceeds the outstanding debt: the
final clamp of the source guarantees it in every branch. -/
theorem deleverageSlice_le (p : VaultParams) (d h : Nat) : deleverageSlice p d h ≤ d := by
  have h10 : d / 10 ≤ d := Nat.div_le_self d 10
  simp only [deleverageSlice]
  split <;> split <;> omega

/-- A ceiling mulDiv is zero only when the product itself is zero. -/
theorem mulDivCeil_eq_zero {a b c : Nat} (h : mulDivCeil a b c = 0) : a * b = 0 := by
  unfold mulDivCeil at h
  split at h
  · next hr =>
    have hq : a * b / c = 0 := by omega
    have hdm := Nat.div_add_mod (a * b) c
    rw [hq, hr, Nat.mul_zero, Nat.add_zero] at hdm
    exact hdm.symm
  · exact absurd h (Nat.succ_ne_zero _)

/-- countSupply distributes over list append. -/
theorem countSupply_append (l1 l2 : List PoolAction) :
    countSupply (l1 ++ l2) = countSupply l1 + countSupply l2 := by
  induction l1 with
  | nil => simp [countSupply]
  | cons x tr ih =>
    cases x <;> simp [countSupply, ih] <;> omega

/-- The bounded borrow/re-supply iterations perform no supply action
beyond their iteration count, whatever the market answers. -/
theorem loopIters_supply_le {σ : Type} (P : Pool σ) (p : VaultParams) :
    ∀ n s, countSupply (loopIters P p n s).2 ≤ n := by
  intro n
  induction n with
  | zero => intro s; simp [loopIters, countSupply]
  | succ n ih =>
    intro s
    simp only [loopIters]
    split
    · simp [countSupply]
    · split
      · simp [countSupply]
      · split
        · simp [countSupply]
        · have h1 := ih (P.supply Asset.borrowed
            (collOf P s * p.targetLTV / BASIS_POINTS - debtOf P s)
            (P.borrow (collOf P s * p.targetLTV / BASIS_POINTS - debtOf P s) s))
          simp [countSupply_append, countSupply]
          omega

/-! Claim theorems. -/

/-- C9: setParameters rejects, leaving every parameter unchanged (the
revert result none), any update whose three thresholds are not strictly
ordered minHealthFactor < targetHealthFactor < maxHealthFactor, or whose
values fall outside the absolute ranges the source enforces
(targetHealthFactor in [1.1e18, 2e18], minHealthFactor at least 1.05e18,
maxHealthFactor at most 3e18, targetLTV in (0, 8000]). -/
theorem setParameters_rejects_invalid (p : VaultParams) (t m M l : Nat)
    (h : ¬ (m < t ∧ t < M) ∨ t < 11 * 10 ^ 17 ∨ 2 * 10 ^ 18 < t ∨
      m < 105 * 10 ^ 16 ∨ 3 * 10 ^ 18 < M ∨ l = 0 ∨ 8000 < l) :
    setParameters p t m M l = none := by
  unfold setParameters
  split_ifs with h1 h2 h3 h4
  any_goals rfl
  exfalso
  push_neg at h1 h2 h3 h4
  rcases h with h | h | h | h | h | h | h <;> omega

/-- C9 witness: the concrete scenario of the specification, setting
minHealthFactor to 1.4e18 while targetHealthFactor is 1.3e18, is
rejected. -/
theorem setParameters_rejects_invalid_witness :
    setParameters defaultParams (13 * 10 ^ 17) (14 * 10 ^ 17) (15 * 10 ^ 17) 6000 = none :=
  setParameters_rejects_invalid defaultParams _ _ _ _ (Or.inl (by decide))

/-- C4 counterexample: at the vault state with zero shares outstanding and
one unit of net assets (collateral 1, debt 0, donated to the pool
account), the conversions the contract inherits from OpenZeppelin v5
differ from the formulas the claim states: convertToShares(1) returns 0
where the claim says 1, and convertToAssets(1) returns 2 where the claim
says 0. -/
theorem convert_formula_cex :
    vaultTotalAssets smPool vsDonated.market = 1 ∧
    vaultConvertToShares smPool vsDonated 1 = 0 ∧
    convertToSharesSpec vsDonated.totalShares (vaultTotalAssets smPool vsDonated.market) 1 = 1 ∧
    vaultConvertToAssets smPool vsDonated 1 = 2 ∧
    convertToAssetsSpec vsDonated.totalShares (vaultTotalAssets smPool vsDonated.market) 1 = 0 ∧
    (0 : Nat) ≠ 1 ∧ (2 : Nat) ≠ 0 := by
  decide

/-- C4 amended: totalAssets equals max(collateral - debt, 0), and the
conversions are the OpenZeppelin v5 virtual-offset formulas:
convertToShares(assets) is the exact floor of assets * (totalShares + 1) /
(totalAssets + 1) and convertToAssets(shares) the exact floor of shares *
(totalAssets + 1) / (totalShares + 1), stated through the floor
characterization q * den <= num < (q + 1) * den. -/
theorem conversions_amended :
    (∀ c d, totalAssetsOf c d = c - d) ∧
    (∀ S A a, convertToShares S A a * (A + 1) ≤ a * (S + 1) ∧
      a * (S + 1) < (convertToShares S A a + 1) * (A + 1)) ∧
    (∀ S A s, convertToAssets S A s * (S + 1) ≤ s * (A + 1) ∧
      s * (A + 1) < (convertToAssets S A s + 1) * (S + 1)) := by
  refine ⟨fun c d => ?_, fun S A a => ?_, fun S A s => ?_⟩
  · unfold totalAssetsOf; split <;> omega
  · unfold convertToShares mulDivFloor
    exact ⟨Nat.div_mul_le_self _ _,
      (Nat.lt_mul_div_succ (a * (S + 1)) (Nat.succ_pos A)).trans_eq (Nat.mul_comm _ _)⟩
  · unfold convertToAssets mulDivFloor
    exact ⟨Nat.div_mul_le_self _ _,
      (Nat.lt_mul_div_succ (s * (A + 1)) (Nat.succ_pos S)).trans_eq (Nat.mul_comm _ _)⟩

/-- C7: for every vault state and every positive asset amount, the round
trip convertToAssets(convertToShares(assets)) never exceeds assets: both
inherited conversions round down, so the loss of the round trip is borne
by the actor, not the vault. -/
theorem roundtrip_le {σ : Type} (P : Pool σ) (vs : VaultState σ) (a : Nat)
    (_ha : 0 < a) :
    vaultConvertToAssets P vs (vaultConvertToShares P vs a) ≤ a := by
  unfold vaultConvertToAssets vaultConvertToShares convertToAssets convertToShares mulDivFloor
  set S := vs.totalShares
  set A := vaultTotalAssets P vs.market
  calc a * (S + 1) / (A + 1) * (A + 1) / (S + 1)
      ≤ a * (S + 1) / (S + 1) := Nat.div_le_div_right (Nat.div_mul_le_self _ _)
    _ = a := Nat.mul_div_cancel a (Nat.succ_pos S)

/-- C7 witness: round trip of 3 assets at the donated state. -/
theorem roundtrip_le_witness :
    vaultConvertToAssets smPool vsDonated (vaultConvertToShares smPool vsDonated 3) ≤ 3 :=
  roundtrip_le smPool vsDonated 3 (by decide)

/-- C5: counting the initial supply of the deposited assets as the first
supply action, the leverage loop performs at most maxLoopIterations pool
supply calls per deposit, for every sequence of market responses,
provided maxLoopIterations is at least one (the contract initializes it
to 4 and setMaxLoopIterations enforces the range 1..10). -/
theorem executeLoop_supply_bound {σ : Type} (P : Pool σ) (p : VaultParams)
    (assets : Nat) (s : σ) (hone : 1 ≤ p.maxLoopIterations) :
    countSupply (executeLoop P p assets s).2 ≤ p.maxLoopIterations := by
  have h := loopIters_supply_le P p (p.maxLoopIterations - 1) (P.supply .base assets s)
  simp only [executeLoop, countSupply]
  omega

/-- C5 witness: the witness deposit of 100 units into the fresh vault
performs exactly four supply calls, within the default bound of four. -/
theorem executeLoop_supply_bound_witness :
    countSupply (executeLoop smPool defaultParams 100 (SM.mk 0 0 0)).2 ≤
      defaultParams.maxLoopIterations :=
  executeLoop_supply_bound smPool defaultParams 100 (SM.mk 0 0 0) (by decide)

/-- C8: when the health factor is already inside [minHealthFactor,
maxHealthFactor], or the debt is zero and the health factor exceeds
maxHealthFactor, rebalance returns false, makes no pool call (empty
trace), and returns the market state unchanged. The ordering hypothesis
minHealthFactor <= maxHealthFactor holds for every reachable parameter
set (defaults and setParameters both enforce it). -/
theorem rebalance_noop {σ : Type} (P : Pool σ) (p : VaultParams) (fuel : Nat) (s : σ)
    (hord : p.minHealthFactor ≤ p.maxHealthFactor)
    (h : (p.minHealthFactor ≤ hfOf P s ∧ hfOf P s ≤ p.maxHealthFactor) ∨
      (debtOf P s = 0 ∧ p.maxHealthFactor < hfOf P s)) :
    rebalance P p fuel s = some (false, s, []) := by
  simp only [rebalance]
  split_ifs with h1 h2
  · exfalso; rcases h with ⟨h3, h4⟩ | ⟨h3, h4⟩ <;> omega
  · exfalso
    rcases h2 with ⟨h5, h6⟩
    rcases h with ⟨h3, h4⟩ | ⟨h3, h4⟩ <;> omega
  · rfl

/-- C8 witness: rebalance on the in-band market state (health factor
1.26e18 with the default band [1.15e18, 1.5e18]) is a no-op. -/
theorem rebalance_noop_witness :
    rebalance smPool defaultParams 5 mInBand = some (false, mInBand, []) :=
  rebalance_noop smPool defaultParams 5 mInBand (by decide) (Or.inl (by decide))

/-- C6: under the market model of the claim (withdrawing borrow-asset
collateral leaves the debt unchanged, repaying a with a at most the debt
decreases the debt by exactly a), the deleverage loop always terminates:
debt plus one units of fuel suffice, because each executed iteration
either repays a positive slice, strictly decreasing the Nat-valued debt,
or computes a zero slice and exits through the source safety break. -/
theorem deleverage_terminates {σ : Type} (P : Pool σ) (p : VaultParams)
    (Hw : ∀ a s, debtOf P (P.withdraw .borrowed a s) = debtOf P s)
    (Hr : ∀ a s, a ≤ debtOf P s → debtOf P (P.repay a s) = debtOf P s - a) :
    ∀ fuel s, debtOf P s < fuel → deleverageLoop P p fuel s ≠ none := by
  intro fuel
  induction fuel with
  | zero => intro s hs; omega
  | succ n ih =>
    intro s hs
    simp only [deleverageLoop]
    split
    · rename_i hcond
      split
      · exact fun hcontra => Option.noConfusion hcontra
      · rename_i ht
        set t := deleverageSlice p (debtOf P s) (hfOf P s) with hT
        set s1 := P.repay t (P.withdraw Asset.borrowed t s) with hS1
        have hle : t ≤ debtOf P s := deleverageSlice_le p _ _
        have hd1 : debtOf P s1 = debtOf P s - t := by
          rw [hS1, Hr t _ (by rw [Hw]; exact hle), Hw]
        have hlt : debtOf P s1 < n := by omega
        have hn := ih s1 hlt
        cases hdl : deleverageLoop P p n s1 with
        | none => exact absurd hdl hn
        | some r =>
          obtain ⟨s2, tr⟩ := r
          simp [hdl]
    · exact fun hcontra => Option.noConfusion hcontra

/-- C6 witness: from the concrete market state with debt 5 the loop
terminates within six iterations of fuel; the concrete pool satisfies
the market model definitionally. -/
theorem deleverage_terminates_witness :
    deleverageLoop smPool defaultParams 6 mLow ≠ none :=
  deleverage_terminates smPool defaultParams (fun _ _ => rfl) (fun _ _ _ => rfl)
    6 mLow (by decide)

/-- C3 amended: every executed iteration of the deleverage loop repays
exactly deleverageSlice debt hf, which is (debt * (targetHealthFactor -
hf) / targetHealthFactor) / 1e18 - one more division by 1e18 than the
consistently scaled ratio formula - replaced by debt / 10 when it rounds
to zero and clamped above at debt, hence always in [0, debt]: the first
two pool calls of an executing iteration withdraw and repay exactly that
amount. -/
theorem deleverage_slice_amended {σ : Type} (P : Pool σ) (p : VaultParams)
    (fuel : Nat) (s : σ)
    (h1 : hfOf P s < p.targetHealthFactor) (h2 : 0 < debtOf P s) :
    deleverageSlice p (debtOf P s) (hfOf P s) ≤ debtOf P s ∧
    ∀ res, deleverageLoop P p (fuel + 1) s = some res →
      res.2.take 2 =
        [PoolAction.withdrawA Asset.borrowed (deleverageSlice p (debtOf P s) (hfOf P s)),
          PoolAction.repayA (deleverageSlice p (debtOf P s) (hfOf P s))] := by
  refine ⟨deleverageSlice_le p _ _, ?_⟩
  intro res hres
  simp only [deleverageLoop] at hres
  rw [if_pos ⟨h1, h2⟩] at hres
  split at hres
  · cases hres
    rfl
  · split at hres
    · exact Option.noConfusion hres
    · cases hres
      rfl

/-- C3 amended witness: the first deleverage iteration from the market
state with debt 5 and health factor 1.08e18. -/
theorem deleverage_slice_amended_witness :
    deleverageSlice defaultParams (debtOf smPool mLow) (hfOf smPool mLow) ≤
      debtOf smPool mLow ∧
    dlres.2.take 2 =
      [PoolAction.withdrawA Asset.borrowed
          (deleverageSlice defaultParams (debtOf smPool mLow) (hfOf smPool mLow)),
        PoolAction.repayA (deleverageSlice defaultParams (debtOf smPool mLow) (hfOf smPool mLow))] :=
  ⟨(deleverage_slice_amended smPool defaultParams 0 mLow (by decide) (by decide)).1,
    (deleverage_slice_amended smPool defaultParams 0 mLow (by decide) (by decide)).2 dlres rfl⟩

/-- C3 counterexample: at a position with debt 1e18 and health factor
1.08e18 under the default parameters, the first deleverage iteration of
rebalance repays 1e17 - the debt/10 fallback, because the source divides
the already consistently scaled quotient by 1e18 once more, rounding it
to zero - whereas the formula stated by the claim yields
169230769230769230. -/
theorem deleverage_slice_cex :
    (rebalance smPool defaultParams 30 mC3).map (fun r => r.2.2.take 2) =
      some [PoolAction.withdrawA Asset.borrowed (10 ^ 17), PoolAction.repayA (10 ^ 17)] ∧
    deleverageSliceSpec defaultParams (debtOf smPool mC3) (hfOf smPool mC3) =
      169230769230769230 ∧
    (10 ^ 17 : Nat) ≠ 169230769230769230 := by
  decide

/-- C1 counterexample: rebalance called on a position with health factor
1.08e18 (below the 1.15e18 minimum) and debt 5 takes the deleverage
branch, computes a zero repay slice (the formula rounds to zero and the
fallback 5 / 10 is also zero), performs two zero-amount pool calls, exits
through the source safety break, and returns success with the health
factor still 1.08e18, below minHealthFactor: rebalance checks no health
factor after acting. The concrete market instance follows the
external-market interface the specification assumes (section 6). -/
theorem rebalance_hf_floor_cex :
    (rebalance smPool defaultParams 10 mLow).map (fun r => (r.1, hfOf smPool r.2.1)) =
      some (true, 108 * 10 ^ 16) ∧
    108 * 10 ^ 16 < defaultParams.minHealthFactor := by
  decide

/-- C2 (code bug): mint is not overridden by HypurrFiVault, so whenever
the inherited mint executes at all it makes no pool call. Under a finite
maxTotalAssets of 1e12 (owner-settable; with the default 2^256 - 1 cap
the inherited maxMint itself reverts on mulDiv overflow whenever shares
are outstanding, so mint cannot even run), at a vault state whose market
health factor is 0.72e18, far below minHealthFactor, mint(5) succeeds -
every mulDiv product along this path, the largest being the 6e12 of
maxMint, fits in uint256, so no overflow revert fires - charges
previewMint(5) = 1 asset, mints the shares, leaves the market state
untouched, and performs no health-factor check. The repository design
document and the specification both require mint to run the leverage
loop on the received assets and assert the final health factor,
symmetrically to deposit. -/
theorem mint_skips_loop_and_check :
    (mint smPool pCapped vsUnsafe 5 7).map (fun r => (r.1, r.2.2)) = some (1, []) ∧
    ((mint smPool pCapped vsUnsafe 5 7).getD (0, vsUnsafe, [])).2.1.market =
      vsUnsafe.market ∧
    hfOf smPool vsUnsafe.market = 72 * 10 ^ 16 ∧
    72 * 10 ^ 16 < pCapped.minHealthFactor := by
  refine ⟨by decide, rfl, by decide, by decide⟩

/-- C1 amended: the health-factor floor holds for the three entry points
that assert it in the source: a successful deposit ends with a health
factor of at least minHealthFactor, and a successful withdraw or redeem
that leaves shares outstanding does too, over every market. (rebalance,
by contrast, asserts nothing after acting; see the counterexample.) -/
theorem hf_floor_deposit_withdraw_redeem {σ : Type} (P : Pool σ) (p : VaultParams) :
    (∀ vs assets receiver res, deposit P p vs assets receiver = some res →
      p.minHealthFactor ≤ hfOf P res.2.1.market) ∧
    (∀ vs assets sender receiver owner res,
      withdraw P p vs assets sender receiver owner = some res →
      0 < res.2.1.totalShares → p.minHealthFactor ≤ hfOf P res.2.1.market) ∧
    (∀ vs shares sender receiver owner res,
      redeem P p vs shares sender receiver owner = some res →
      0 < res.2.1.totalShares → p.minHealthFactor ≤ hfOf P res.2.1.market) := by
  refine ⟨?_, ?_, ?_⟩
  · intro vs assets receiver res h
    simp only [deposit] at h
    split at h
    · exact Option.noConfusion h
    split at h
    · exact Option.noConfusion h
    split at h
    · exact Option.noConfusion h
    split at h
    · exact Option.noConfusion h
    split at h
    · exact Option.noConfusion h
    split at h
    · exact Option.noConfusion h
    · rename_i hhf
      cases h
      simpa using Nat.le_of_not_lt hhf
  · intro vs assets sender receiver owner res h h0
    simp only [withdraw] at h
    split at h
    · exact Option.noConfusion h
    split at h
    · exact Option.noConfusion h
    split at h
    · exact Option.noConfusion h
    split at h
    · exact Option.noConfusion h
    split at h
    · exact Option.noConfusion h
    split at h
    · rename_i hpos
      split at h
      · exact Option.noConfusion h
      · rename_i hhf
        cases h
        simpa using Nat.le_of_not_lt hhf
    · rename_i hnone
      cases h
      simp only at h0
      exact absurd h0 hnone
  · intro vs shares sender receiver owner res h h0
    simp only [redeem] at h
    split at h
    · exact Option.noConfusion h
    split at h
    · exact Option.noConfusion h
    split at h
    · exact Option.noConfusion h
    split at h
    · exact Option.noConfusion h
    split at h
    · exact Option.noConfusion h
    split at h
    · rename_i hpos
      split at h
      · exact Option.noConfusion h
      · rename_i hhf
        cases h
        simpa using Nat.le_of_not_lt hhf
    · rename_i hnone
      cases h
      simp only at h0
      exact absurd h0 hnone

/-- C1 amended witness: concrete successful deposit, withdraw and redeem
runs at the concrete market, each ending with a health factor above the
1.15e18 minimum. -/
theorem hf_floor_deposit_withdraw_redeem_witness :
    defaultParams.minHealthFactor ≤ hfOf smPool dres.2.1.market ∧
    defaultParams.minHealthFactor ≤ hfOf smPool wres.2.1.market ∧
    defaultParams.minHealthFactor ≤ hfOf smPool rres.2.1.market :=
  ⟨(hf_floor_deposit_withdraw_redeem smPool defaultParams).1 vsFresh 100 7 dres rfl,
    (hf_floor_deposit_withdraw_redeem smPool defaultParams).2.1 vsLev 10 7 7 7 wres rfl
      (by decide),
    (hf_floor_deposit_withdraw_redeem smPool defaultParams).2.2 vsLev 10 7 7 7 rres rfl
      (by decide)⟩

/-- C10: each facade verb rejects, with no ledger or position mutation
(the revert result none), an input whose converted counterpart rounds to
zero: deposit when previewDeposit(assets) = 0, withdraw when
previewWithdraw(assets) = 0 (the ceiling rounding makes this possible
only for assets = 0, so the zero-amount guard fires), and redeem when
previewRedeem(shares) = 0. -/
theorem preview_zero_rejected {σ : Type} (P : Pool σ) (p : VaultParams) :
    (∀ vs assets receiver, assets ≠ 0 → previewDeposit P vs assets = 0 →
      deposit P p vs assets receiver = none) ∧
    (∀ vs assets sender receiver owner, previewWithdraw P vs assets = 0 →
      withdraw P p vs assets sender receiver owner = none) ∧
    (∀ vs shares sender receiver owner, shares ≠ 0 → previewRedeem P vs shares = 0 →
      redeem P p vs shares sender receiver owner = none) := by
  refine ⟨?_, ?_, ?_⟩
  · intro vs assets receiver _ha h0
    simp only [deposit, h0]
    split_ifs <;> rfl
  · intro vs assets sender receiver owner h0
    simp only [previewWithdraw, convertToSharesUp] at h0
    have h1 := mulDivCeil_eq_zero h0
    have ha : assets = 0 := by
      rcases Nat.mul_eq_zero.mp h1 with h | h
      · exact h
      · omega
    subst ha
    simp [withdraw]
  · intro vs shares sender receiver owner _hs h0
    simp only [redeem, h0]
    split_ifs <;> rfl

/-- C10 witness: concrete rejected calls: a deposit of one asset into the
donated state (previewDeposit rounds to zero shares), a zero-asset
withdrawal, and a redemption of one share against zero net assets
(previewRedeem rounds to zero assets). -/
theorem preview_zero_rejected_witness :
    deposit smPool defaultParams vsDonated 1 7 = none ∧
    withdraw smPool defaultParams vsDonated 0 3 3 3 = none ∧
    redeem smPool defaultParams vsZeroAssets 1 3 3 3 = none :=
  ⟨(preview_zero_rejected smPool defaultParams).1 vsDonated 1 7 (by decide) (by decide),
    (preview_zero_rejected smPool defaultParams).2.1 vsDonated 0 3 3 3 (by decide),
    (preview_zero_rejected smPool defaultParams).2.2 vsZeroAssets 1 3 3 3 (by decide)
      (by decide)⟩

end HypurrFi
